import Mathlib

/-!
Shallow embedding of the satellite-sensor band-convolution package
(packages `convolution` and `do_convolution`).  Numbers are modelled as
rationals, numpy/pandas columns as `List ℚ`, and the numerical primitives
`np.trapz` and `np.interp` are translated directly from their documented
pointwise formulas.  Each claim about the specification is settled by a
theorem over these definitions.
-/

namespace SensorConv

/-! ## Numerical primitives -/

/-- Numpy `np.trapz(y)` with the default unit spacing `dx = 1`:
sum of `(y i + y (i+1)) / 2` over consecutive samples.  This is what every
`np.trapz(..., axis=0)` call in `convolution/sensors.py` and
`do_convolution/sensors.py` computes, since no `x` argument is passed. -/
def trapz : List ℚ → ℚ
  | a :: b :: rest => (a + b) / 2 + trapz (b :: rest)
  | _ => 0

/-- Numpy `np.trapz(y, x)` with an explicit sample grid `x`:
sum of `(x (i+1) - x i) * (y i + y (i+1)) / 2` over consecutive samples.
This is the form used in `apply_convolutions.py`, where `x` is the list of
SRF (resp. in-situ) wavelengths selected in the band window. -/
def trapzWith : List ℚ → List ℚ → ℚ
  | y1 :: y2 :: ys, x1 :: x2 :: xs =>
      (x2 - x1) * (y1 + y2) / 2 + trapzWith (y2 :: ys) (x2 :: xs)
  | _, _ => 0

/-- Numpy `np.interp(x, xp, fp)` on a list of `(xp, fp)` pairs with `xp`
increasing: constant extrapolation with `fp.head` below the grid and
`fp.last` above it, linear interpolation between consecutive grid points.
An empty grid is never reached by the code (guarded by the emptiness
check) and is mapped to `0`. -/
def npInterp (x : ℚ) : List (ℚ × ℚ) → ℚ
  | [] => 0
  | [(_, f1)] => f1
  | (x1, f1) :: (x2, f2) :: rest =>
      if x ≤ x1 then f1
      else if x ≤ x2 then f1 + (f2 - f1) * (x - x1) / (x2 - x1)
      else npInterp x ((x2, f2) :: rest)

/-- Python `a % b` for rationals (`b > 0` in all uses):
`a - b * floor (a / b)`. -/
def pyMod (a b : ℚ) : ℚ := a - b * ⌊a / b⌋

/-- Python `round(q, 1)`: round to the nearest multiple of `1/10`.
The tie-break (banker's rounding in Python) is irrelevant on every input
the code reaches: ties happen exactly when `q % 0.1 == 0.05`, and on that
branch the code only ever rounds exact multiples of `1/10`. -/
def pyRound1 (q : ℚ) : ℚ := (round (10 * q) : ℤ) / 10

/-- Python `w // 2` for a rational `w` (float floor division). -/
def pyFloorDiv2 (w : ℚ) : ℚ := (⌊w / 2⌋ : ℤ)

/-- The guarded division `if denominator != 0: num / den else: 0` used by
both functions in `apply_convolutions.py`. -/
def checkedDiv (n d : ℚ) : ℚ := if d = 0 then 0 else n / d

/-- Unguarded numpy float division, as executed by the fixed-band sensor
functions (`convolution/sensors.py`, `do_convolution/sensors.py`), which
divide with no zero test.  A zero denominator yields `inf`/`nan` (numpy
only warns, and `np.seterr(divide="ignore")` silences the warning); that
non-finite outcome is modelled by `none`. -/
def npDiv (n d : ℚ) : Option ℚ := if d = 0 then none else some (n / d)

/-- Elementwise product of two columns (`pandas` `*` / `mul`). -/
def zipMul (a b : List ℚ) : List ℚ := List.zipWith (· * ·) a b

/-- The `df.iloc[lo:hi]` row slice of a column. -/
def slice (l : List ℚ) (lo hi : ℕ) : List ℚ := (l.drop lo).take (hi - lo)

/-- Decidable test that a wavelength axis is an arithmetic grid of step
`h` (consecutive differences all equal to `h`). -/
def isStep (h : ℚ) : List ℚ → Bool
  | a :: b :: rest => decide (b - a = h) && isStep h (b :: rest)
  | _ => true

/-! ## Parametric bandpass convolution (`convolution/apply_convolutions.py`) -/

/-- One diagnostic appended to `self.warnings`.  The source builds the
string `f"WARNING: Band {center_wl} nm was not convolved due to missing
input data"`; its only variable part is the band center, so a diagnostic
is modelled by its constructor applied to that center. -/
inductive Warning where
  | missingInput (center : ℚ)
deriving DecidableEq, Repr

/-- Band window of `convolve_bands_01nm`: `half_width = width / 2.0`; when
`half_width % 0.1 == 0.05` the halves are `round(half ∓ 0.05, 1)`
(asymmetric split), otherwise both halves are `round(half, 1)`; the
window is `[center - half_left, center + half_right]`. -/
def window01 (center_wl width : ℚ) : ℚ × ℚ :=
  let half_width := width / 2
  if pyMod half_width (1/10) = 1/20 then
    (center_wl - pyRound1 (half_width - 1/20), center_wl + pyRound1 (half_width + 1/20))
  else
    (center_wl - pyRound1 half_width, center_wl + pyRound1 half_width)

/-- The boolean mask `(wl >= start) & (wl <= end)` applied to a list of
`(wavelength, value)` pairs, keeping the rows whose wavelength is in the
closed window. -/
def selPairs (start_wl end_wl : ℚ) (rows : List (ℚ × ℚ)) : List (ℚ × ℚ) :=
  rows.filter fun r => decide (start_wl ≤ r.1) && decide (r.1 ≤ end_wl)

/-- In-situ rows of `convolve_bands_01nm` falling in the band window
(`in_situ_band_wl` zipped with `in_situ_band_rrs`). -/
def sel01 (center_wl width : ℚ) (in_situ_wl in_situ_rrs : List ℚ) : List (ℚ × ℚ) :=
  selPairs (window01 center_wl width).1 (window01 center_wl width).2
    (in_situ_wl.zip in_situ_rrs)

/-- SRF rows of `convolve_bands_01nm` falling in the band window:
`srf_band_wl` zipped with the SRF column `str(int(center_wl))` restricted
to those wavelengths.  The column for the current band is passed in as
`srf_band` (wavelength, weight) rows. -/
def srfSel01 (center_wl width : ℚ) (srf_band : List (ℚ × ℚ)) : List (ℚ × ℚ) :=
  selPairs (window01 center_wl width).1 (window01 center_wl width).2 srf_band

/-- The step `interp_rrs = np.interp(srf_band_wl, in_situ_band_wl, in_situ_band_rrs)`:
the in-window in-situ reflectance linearly interpolated onto the
in-window SRF wavelengths. -/
def interp01 (center_wl width : ℚ) (in_situ_wl in_situ_rrs : List ℚ)
    (srf_band : List (ℚ × ℚ)) : List ℚ :=
  (srfSel01 center_wl width srf_band).map fun r =>
    npInterp r.1 (sel01 center_wl width in_situ_wl in_situ_rrs)

/-- The step `numerator = np.trapz(interp_rrs * srf_band, srf_band_wl)`. -/
def num01 (center_wl width : ℚ) (in_situ_wl in_situ_rrs : List ℚ)
    (srf_band : List (ℚ × ℚ)) : ℚ :=
  trapzWith
    (zipMul (interp01 center_wl width in_situ_wl in_situ_rrs srf_band)
      ((srfSel01 center_wl width srf_band).map Prod.snd))
    ((srfSel01 center_wl width srf_band).map Prod.fst)

/-- The step `denominator = np.trapz(srf_band, srf_band_wl)`. -/
def den01 (center_wl width : ℚ) (srf_band : List (ℚ × ℚ)) : ℚ :=
  trapzWith ((srfSel01 center_wl width srf_band).map Prod.snd)
    ((srfSel01 center_wl width srf_band).map Prod.fst)

/-- Function `convolve_bands_01nm`: fine-resolution (0.1 nm SRF grid) parametric
band convolution.  Returns the band value together with the updated
`self.warnings` list.  If no in-situ sample falls in the window the value
is `0` and a diagnostic is appended; otherwise the value is the guarded
ratio of trapezoidal integrals and the warnings are unchanged. -/
def convolve_bands_01nm (center_wl width : ℚ) (in_situ_wl in_situ_rrs : List ℚ)
    (srf_band : List (ℚ × ℚ)) (warnings : List Warning) : ℚ × List Warning :=
  if (sel01 center_wl width in_situ_wl in_situ_rrs).isEmpty then
    (0, warnings ++ [Warning.missingInput center_wl])
  else
    (checkedDiv (num01 center_wl width in_situ_wl in_situ_rrs srf_band)
      (den01 center_wl width srf_band), warnings)

/-- In-situ rows of `convolve_bands_1nm` falling in the band window
`[center - width // 2, center + width // 2]`. -/
def sel1 (center_wl width : ℚ) (in_situ_wl in_situ_rrs : List ℚ) : List (ℚ × ℚ) :=
  selPairs (center_wl - pyFloorDiv2 width) (center_wl + pyFloorDiv2 width)
    (in_situ_wl.zip in_situ_rrs)

/-- The step `numerator = np.trapz(in_situ_band_rrs * srf_band, in_situ_band_wl)`
where `srf_band = self.srf.loc[in_situ_band_wl, str(int(center_wl))]` is
the direct (interpolation-free) lookup of the SRF column at the selected
in-situ wavelengths, modelled by the lookup function `srfAt`. -/
def num1 (center_wl width : ℚ) (in_situ_wl in_situ_rrs : List ℚ)
    (srfAt : ℚ → ℚ) : ℚ :=
  trapzWith
    (zipMul ((sel1 center_wl width in_situ_wl in_situ_rrs).map Prod.snd)
      ((sel1 center_wl width in_situ_wl in_situ_rrs).map fun r => srfAt r.1))
    ((sel1 center_wl width in_situ_wl in_situ_rrs).map Prod.fst)

/-- The step `denominator = np.trapz(srf_band, in_situ_band_wl)`. -/
def den1 (center_wl width : ℚ) (in_situ_wl in_situ_rrs : List ℚ)
    (srfAt : ℚ → ℚ) : ℚ :=
  trapzWith ((sel1 center_wl width in_situ_wl in_situ_rrs).map fun r => srfAt r.1)
    ((sel1 center_wl width in_situ_wl in_situ_rrs).map Prod.fst)

/-- Function `convolve_bands_1nm`: coarse-resolution (1 nm, shared integer grid)
parametric band convolution.  `half_width = width // 2`, window
`[center - half, center + half]`, SRF weights looked up directly at the
selected in-situ wavelengths, same guarded ratio of integrals. -/
def convolve_bands_1nm (center_wl width : ℚ) (in_situ_wl in_situ_rrs : List ℚ)
    (srfAt : ℚ → ℚ) (warnings : List Warning) : ℚ × List Warning :=
  if (sel1 center_wl width in_situ_wl in_situ_rrs).isEmpty then
    (0, warnings ++ [Warning.missingInput center_wl])
  else
    (checkedDiv (num1 center_wl width in_situ_wl in_situ_rrs srfAt)
      (den1 center_wl width in_situ_wl in_situ_rrs srfAt), warnings)

/-! ## Fixed-band convolution (`convolution/sensors.py`,
`do_convolution/sensors.py`) -/

/-- One band of a fixed-band sensor: the expression
`np.trapz(band_df.iloc[lo:hi, k], axis=0) / np.trapz(srf.iloc[lo:hi, k], axis=0)`
applied to the precomputed product column and the SRF column of band `k`,
with the unguarded numpy division. -/
def fixedBandValue (prodCol srfCol : List ℚ) (lo hi : ℕ) : Option ℚ :=
  npDiv (trapz (slice prodCol lo hi)) (trapz (slice srfCol lo hi))

/-- The thirteen `iloc` row ranges of `sentinel2` in
`convolution/sensors.py` (bands 1–8, 8a, 9–12). -/
def sentinel2Ranges : List (ℕ × ℕ) :=
  [(62, 107), (89, 184), (188, 233), (296, 344), (345, 364), (381, 399),
   (419, 447), (423, 557), (497, 531), (582, 609), (987, 1063),
   (1189, 1332), (1728, 1970)]

/-- The `df.iloc[lo:hi, k]` column access.  The code addresses the SRF
table's columns positionally and a missing column would raise; the data
contract guarantees every referenced column exists, and an absent column
is read as empty here. -/
def colAt (cols : List (List ℚ)) (k : ℕ) : List ℚ := (cols.get? k).getD []

/-- One observation column of a fixed-band sensor function: the list of
per-band ratios taken over the sensor's `(lo, hi)` ranges, band `k`
pairing the `k`-th product column with the `k`-th SRF column. -/
def bandRatios (ranges : List (ℕ × ℕ)) (prodCols srfCols : List (List ℚ)) :
    List (Option ℚ) :=
  ranges.enum.map fun kr =>
    fixedBandValue (colAt prodCols kr.1) (colAt srfCols kr.1) kr.2.1 kr.2.2

/-! ## Orchestration (`convolution/Convolution.py`,
`do_convolution/convolution.py`) -/

/-- The product-precomputation loop shared by `Convolution.__init__` and
`do_convolution/convolution.py`:
`for column in reflectance_data:
   band_muls[reflectance_data[column].name] = srf.mul(reflectance_data[column], axis=0)`.
Observations are `(identifier, reflectance column)` pairs sharing the SRF
table's wavelength axis; the dict is keyed by observation identifier.
When two columns share a label, pandas makes `reflectance_data[column]` a
DataFrame and the `.name` access raises `AttributeError` on the first
iteration, before any dict assignment — so the dict is only ever
populated for pairwise-distinct identifiers, where each key is assigned
exactly once, one entry per observation in input order, as modelled
here. -/
def bandMuls (srfCols : List (List ℚ)) (obs : List (String × List ℚ)) :
    List (String × List (List ℚ)) :=
  obs.map fun o => (o.1, srfCols.map fun c => zipMul c o.2)

/-- Modelled from the spec: the canonical ordered Sentinel-2 band list of
the class-based package, loaded by `get_central_wavelengths()` from the
`central_wavelengths.json` resource, which is not under `src/`; the list
mirrors the commented-out `central_bands` table in `Convolution.py`. -/
def sentinel2ClassBands : List String :=
  ["Band1_443", "Band2_490", "Band3_560", "Band4_665", "Band5_705",
   "Band6_740", "Band7_783", "Band8_842", "Band8A_865", "Band9_940",
   "Band10_1375", "Band11_1610", "Band12_2190"]

/-- The class-based Sentinel-2 run (`Convolution.__init__` products plus
`sensors.sentinel2`): output table as row labels (the canonical band
index set once in `__init__`) and one column `name + "_conv"` of band
ratios per entry of the `_band_muls` dict. -/
def sentinel2ClassTable (srfCols : List (List ℚ)) (obs : List (String × List ℚ)) :
    List String × List (String × List (Option ℚ)) :=
  (sentinel2ClassBands,
    (bandMuls srfCols obs).map fun m =>
      (m.1 ++ "_conv", bandRatios sentinel2Ranges m.2 srfCols))

/-- The sensor names accepted by `Convolution.__init__`
(`self._available_sensors`). -/
def availableSensors : List String :=
  ["Sentinel2a", "Sentinel2b", "Sentinel3a", "Sentinel3b", "Superdove",
   "Landsat5TM", "Landsat7ETM+", "Landsat8OLI", "Landsat9OLI"]

/-- Failure modes of the two entry points: the `ValueError` raised by
`Convolution.__init__` on an unknown sensor, the `UnboundLocalError`
raised in `do_convolution/convolution.py` when `convolved_data` was never
assigned, and the `IndexError` raised there by `convolved_data[0]` on an
empty observation set. -/
inductive PyError where
  | valueError
  | unboundLocal
  | indexError
deriving DecidableEq, Repr

/-- Constructor `Convolution.__init__`: the sensor name is validated against
`_available_sensors` first; only on success does the constructor go on to
load the SRF table and precompute the reflectance × SRF products.  An
unknown name raises `ValueError` before either happens, which the model
expresses by returning the error with no product computed. -/
def convolutionInit (sensor_name : String) (srfCols : List (List ℚ))
    (obs : List (String × List ℚ)) :
    Except PyError (List (String × List (List ℚ))) :=
  if sensor_name ∈ availableSensors then
    Except.ok (bandMuls srfCols obs)
  else
    Except.error PyError.valueError

/-- Band labels of the `do_convolution` Sentinel-2 output: Band 10 is
never included, Band 9 only when `s2_band_9_flag` is set. -/
def s2BandNames (s2_band_9_flag : Bool) : List String :=
  if s2_band_9_flag then
    ["Band1_443", "Band2_490", "Band3_560", "Band4_665", "Band5_705",
     "Band6_740", "Band7_783", "Band8_842", "Band8A_865", "Band9_940",
     "Band11_1610", "Band12_2190"]
  else
    ["Band1_443", "Band2_490", "Band3_560", "Band4_665", "Band5_705",
     "Band6_740", "Band7_783", "Band8_842", "Band8A_865", "Band11_1610",
     "Band12_2190"]

/-- The `(lo, hi, column)` triples actually used by the `do_convolution`
`sentinel2` function (columns 0–8 then 11, 12; column 9 only with the
Band-9 flag). -/
def s2Selected (s2_band_9_flag : Bool) : List ((ℕ × ℕ) × ℕ) :=
  if s2_band_9_flag then
    [((62, 107), 0), ((89, 184), 1), ((188, 233), 2), ((296, 344), 3),
     ((345, 364), 4), ((381, 399), 5), ((419, 447), 6), ((423, 557), 7),
     ((497, 531), 8), ((582, 609), 9), ((1189, 1332), 11), ((1728, 1970), 12)]
  else
    [((62, 107), 0), ((89, 184), 1), ((188, 233), 2), ((296, 344), 3),
     ((345, 364), 4), ((381, 399), 5), ((419, 447), 6), ((423, 557), 7),
     ((497, 531), 8), ((1189, 1332), 11), ((1728, 1970), 12)]

/-- One per-observation DataFrame of the `do_convolution` `sentinel2`
function: one column named `col_name + "_conv"` holding the selected band
ratios, indexed by `s2BandNames`. -/
def sentinel2Do (srfCols : List (List ℚ)) (muls : List (String × List (List ℚ)))
    (s2_band_9_flag : Bool) : List (String × List (Option ℚ)) :=
  muls.map fun m =>
    (m.1 ++ "_conv",
      (s2Selected s2_band_9_flag).map fun b =>
        fixedBandValue (colAt m.2 b.2) (colAt srfCols b.2) b.1.1 b.1.2)

/-- Band labels of the `do_convolution` `sentinel3` output. -/
def s3BandNames : List String :=
  ["Band1_400", "Band2_412.5", "Band3_442.5", "Band4_490", "Band5_510",
   "Band6_560", "Band7_620", "Band8_665", "Band9_673.75", "Band10_681.25",
   "Band11_708.75", "Band12_753.75", "Band13_761.25", "Band14_764.375",
   "Band15_767.5", "Band16_778.75", "Band17_865", "Band18_885",
   "Band19_900", "Band20_940", "Band21_1020"]

/-- The 21 `iloc` row ranges of the `sentinel3` functions. -/
def sentinel3Ranges : List (ℕ × ℕ) :=
  [(37, 62), (52, 72), (83, 103), (131, 150), (151, 170), (201, 220),
   (261, 280), (305, 325), (315, 333), (323, 340), (349, 369), (396, 413),
   (406, 418), (408, 422), (412, 424), (417, 442), (501, 530), (524, 544),
   (539, 559), (575, 604), (645, 694)]

/-- Band labels of the `do_convolution` `superdove` output. -/
def superdoveBandNames : List String :=
  ["Band1_443", "Band2_490", "Band3_531", "Band4_565", "Band5_610",
   "Band6_665", "Band7_705", "Band8_865"]

/-- The 8 `iloc` row ranges of the `superdove` functions. -/
def superdoveRanges : List (ℕ × ℕ) :=
  [(77, 111), (108, 172), (157, 209), (193, 242), (243, 285), (291, 339),
   (342, 374), (490, 545)]

/-- One per-observation DataFrame of a `do_convolution` sensor function
whose bands are taken in column order 0, 1, … (`sentinel3`, `superdove`). -/
def sensorDo (ranges : List (ℕ × ℕ)) (srfCols : List (List ℚ))
    (muls : List (String × List (List ℚ))) : List (String × List (Option ℚ)) :=
  muls.map fun m => (m.1 ++ "_conv", bandRatios ranges m.2 srfCols)

/-- Function `convolution` of `do_convolution/convolution.py`, with the products it unconditionally
computes exposed alongside the result: the function multiplies every
reflectance column with the SRF table *before* looking at `sensor_name`;
a name matching none of the three `if` branches leaves `convolved_data`
unbound so `len(convolved_data)` raises `UnboundLocalError`; an empty
observation set makes `convolved_data[0]` raise `IndexError`; otherwise
the per-observation one-column frames (identical indexes) are collated
side by side.  The result table is (row labels, columns). -/
def doConvolutionTrace (sensor_name : String) (srfCols : List (List ℚ))
    (obs : List (String × List ℚ)) (s2_band_9_flag : Bool) :
    List (String × List (List ℚ)) ×
      Except PyError (List String × List (String × List (Option ℚ))) :=
  let muls := bandMuls srfCols obs
  let convolved_data :
      Option (List String × List (String × List (Option ℚ))) :=
    if sensor_name = "Sentinel2" then
      some (s2BandNames s2_band_9_flag, sentinel2Do srfCols muls s2_band_9_flag)
    else if sensor_name = "Sentinel3" then
      some (s3BandNames, sensorDo sentinel3Ranges srfCols muls)
    else if sensor_name = "Superdove" then
      some (superdoveBandNames, sensorDo superdoveRanges srfCols muls)
    else none
  match convolved_data with
  | none => (muls, Except.error PyError.unboundLocal)
  | some t =>
      if t.2.isEmpty then (muls, Except.error PyError.indexError)
      else (muls, Except.ok t)

/-! ## Run drivers and diagnostics surfacing -/

/-- Modelled from the spec: the per-band driver loop of the parametric
family (the caller of `convolve_bands_01nm`, which is not under `src/`):
each `(center, width)` descriptor is convolved in turn, values are
collected in order and the warnings accumulator is threaded through. -/
def runBands01 (srfTable : ℚ → List (ℚ × ℚ)) (in_situ_wl in_situ_rrs : List ℚ) :
    List (ℚ × ℚ) → List Warning → List ℚ × List Warning
  | [], warnings => ([], warnings)
  | b :: bs, warnings =>
      let r := convolve_bands_01nm b.1 b.2 in_situ_wl in_situ_rrs (srfTable b.1) warnings
      let rest := runBands01 srfTable in_situ_wl in_situ_rrs bs r.2
      (r.1 :: rest.1, rest.2)

/-- Modelled from the spec: the per-observation driver of the parametric
family; every observation's spectrum is convolved over all bands, with
one shared warnings accumulator across the whole run. -/
def runObs01 (bands : List (ℚ × ℚ)) (srfTable : ℚ → List (ℚ × ℚ)) :
    List (List ℚ × List ℚ) → List Warning → List (List ℚ) × List Warning
  | [], warnings => ([], warnings)
  | o :: os, warnings =>
      let r := runBands01 srfTable o.1 o.2 bands warnings
      let rest := runObs01 bands srfTable os r.2
      (r.1 :: rest.1, rest.2)

/-- Modelled from the spec: the diagnostics channel surfaced once at the
end of a run is the deduplicated collection of the accumulated warning
strings (the surfacing code is not under `src/`; §6 of the spec requires
"a deduplicated, order-independent collection"). -/
def surfacedDiagnostics (warnings : List Warning) : List Warning :=
  warnings.dedup

/-! ## Helper lemmas -/

theorem trapz_cons_cons (a b : ℚ) (l : List ℚ) :
    trapz (a :: b :: l) = (a + b) / 2 + trapz (b :: l) := by
  simp [trapz]

theorem trapzWith_cons_cons (y1 y2 x1 x2 : ℚ) (ys xs : List ℚ) :
    trapzWith (y1 :: y2 :: ys) (x1 :: x2 :: xs)
      = (x2 - x1) * (y1 + y2) / 2 + trapzWith (y2 :: ys) (x2 :: xs) := by
  simp [trapzWith]

theorem isStep_iff (h : ℚ) :
    ∀ l : List ℚ, isStep h l = true ↔ List.Chain' (fun a b => b - a = h) l := by
  intro l
  induction l with
  | nil => simp [isStep]
  | cons a t ih =>
    cases t with
    | nil => simp [isStep]
    | cons b r =>
      rw [List.chain'_cons, ← ih]
      simp [isStep]

/-- An arithmetic wavelength axis stays arithmetic on every `iloc` row
slice. -/
theorem isStep_slice (h : ℚ) (l : List ℚ) (lo hi : ℕ)
    (hs : isStep h l = true) : isStep h (slice l lo hi) = true := by
  rw [isStep_iff] at hs ⊢
  exact (hs.drop lo).take (hi - lo)

/-- On an arithmetic grid of step `h`, `np.trapz(y, x)` is `h` times the
unit-spacing `np.trapz(y)`. -/
theorem trapzWith_isStep (h : ℚ) : ∀ (y x : List ℚ), isStep h x = true →
    y.length = x.length → trapzWith y x = h * trapz y := by
  intro y
  induction y with
  | nil => intro x _ _; simp [trapzWith, trapz]
  | cons y1 ytail ih =>
    intro x hs hlen
    cases ytail with
    | nil =>
      cases x with
      | nil => simp at hlen
      | cons x1 xtail =>
        cases xtail with
        | nil => simp [trapzWith, trapz]
        | cons x2 xs => simp at hlen
    | cons y2 ys =>
      cases x with
      | nil => simp at hlen
      | cons x1 xtail =>
        cases xtail with
        | nil => simp at hlen
        | cons x2 xs =>
          have hstep : x2 - x1 = h ∧ isStep h (x2 :: xs) = true := by
            simpa [isStep] using hs
          have hlen' : (y2 :: ys).length = (x2 :: xs).length := by
            simpa using hlen
          rw [trapzWith_cons_cons, trapz_cons_cons,
            ih (x2 :: xs) hstep.2 hlen', hstep.1]
          ring

/-! ## C1 -/

/-- C1: for every fixed-band sensor band with row range `[lo, hi)`, the
computed scalar equals the trapezoidal integral of the precomputed
reflectance × SRF product column over those rows divided by the
trapezoidal integral of the SRF column over the same rows, taken with
the shared wavelength axis as the integration variable — the axis being
an arithmetic grid (step `h > 0`) shared by both columns, as the sensor
SRF tables provide. -/
theorem c1_fixed_band_wavelength_axis (wlAxis prodCol srfCol : List ℚ)
    (lo hi : ℕ) (h : ℚ) (hstep : isStep h wlAxis = true) (hpos : 0 < h)
    (hlp : prodCol.length = wlAxis.length) (hls : srfCol.length = wlAxis.length)
    (hden : trapzWith (slice srfCol lo hi) (slice wlAxis lo hi) ≠ 0) :
    fixedBandValue prodCol srfCol lo hi
      = some (trapzWith (slice prodCol lo hi) (slice wlAxis lo hi)
              / trapzWith (slice srfCol lo hi) (slice wlAxis lo hi)) := by
  have hx : isStep h (slice wlAxis lo hi) = true := isStep_slice h wlAxis lo hi hstep
  have hlp' : (slice prodCol lo hi).length = (slice wlAxis lo hi).length := by
    simp [slice, hlp]
  have hls' : (slice srfCol lo hi).length = (slice wlAxis lo hi).length := by
    simp [slice, hls]
  have e1 := trapzWith_isStep h (slice prodCol lo hi) (slice wlAxis lo hi) hx hlp'
  have e2 := trapzWith_isStep h (slice srfCol lo hi) (slice wlAxis lo hi) hx hls'
  rw [e2] at hden
  have hts : trapz (slice srfCol lo hi) ≠ 0 := by
    intro h0
    rw [h0, mul_zero] at hden
    exact hden rfl
  rw [e1, e2]
  unfold fixedBandValue npDiv
  rw [if_neg hts]
  congr 1
  rw [mul_div_mul_left _ _ (ne_of_gt hpos)]

/-- Witness for C1 at a concrete three-row band. -/
theorem c1_fixed_band_wavelength_axis_witness :
    isStep 1 [(0:ℚ), 1, 2] = true ∧ (0:ℚ) < 1 ∧
    trapzWith (slice [(0:ℚ), 1, 0] 0 3) (slice [(0:ℚ), 1, 2] 0 3) ≠ 0 ∧
    fixedBandValue [0, 2, 0] [0, 1, 0] 0 3
      = some (trapzWith (slice [(0:ℚ), 2, 0] 0 3) (slice [(0:ℚ), 1, 2] 0 3)
              / trapzWith (slice [(0:ℚ), 1, 0] 0 3) (slice [(0:ℚ), 1, 2] 0 3)) := by
  have hstep : isStep 1 [(0:ℚ), 1, 2] = true := by norm_num [isStep]
  have hden : trapzWith (slice [(0:ℚ), 1, 0] 0 3) (slice [(0:ℚ), 1, 2] 0 3) ≠ 0 := by
    norm_num [slice, trapzWith]
  exact ⟨hstep, by norm_num, hden,
    c1_fixed_band_wavelength_axis [0, 1, 2] [0, 2, 0] [0, 1, 0] 0 3 1 hstep
      (by norm_num) (by simp) (by simp) hden⟩

/-! ## C2 -/

/-- Python `round(q, 1)` is the identity on exact multiples of `1/10`. -/
theorem pyRound1_tenth (k : ℤ) : pyRound1 ((k : ℚ) / 10) = (k : ℚ) / 10 := by
  unfold pyRound1
  have h10 : (10 : ℚ) * ((k : ℚ) / 10) = (k : ℚ) := by ring
  rw [h10, round_intCast]

/-- When the half-width lands on the `0.05` boundary, both shifted
half-widths are exact multiples of `1/10`, so the two `round(_, 1)`
calls of the asymmetric branch leave them unchanged. -/
theorem pyMod_boundary (half : ℚ) (hb : pyMod half (1/10) = 1/20) :
    pyRound1 (half - 1/20) = half - 1/20 ∧ pyRound1 (half + 1/20) = half + 1/20 := by
  obtain ⟨k, hk⟩ : ∃ k : ℤ, half = (k : ℚ) / 10 + 1/20 := by
    refine ⟨⌊half / (1/10)⌋, ?_⟩
    unfold pyMod at hb
    linarith
  subst hk
  constructor
  · have h1 : (k : ℚ) / 10 + 1/20 - 1/20 = (k : ℚ) / 10 := by ring
    rw [h1, pyRound1_tenth]
  · have h2 : (k : ℚ) / 10 + 1/20 + 1/20 = ((k + 1 : ℤ) : ℚ) / 10 := by
      push_cast; ring
    rw [h2, pyRound1_tenth]

/-- C2: in the fine-resolution parametric convolution, the half-width is
`width/2`; on the exact `0.05` half-step boundary the window is
`[center - (half - 0.05), center + (half + 0.05)]`, otherwise
`[center ∓ round(half, 1)]`; and when at least one input sample falls in
the window the result is `trapz(interpolated reflectance × SRF weight)`
over the in-window SRF wavelengths divided by `trapz(SRF weight)` over
them — the reflectance linearly interpolated onto the SRF grid — and `0`
when the denominator is zero. -/
theorem c2_convolve01_spec (center_wl width : ℚ) (in_situ_wl in_situ_rrs : List ℚ)
    (srf_band : List (ℚ × ℚ)) (warnings : List Warning) :
    (pyMod (width / 2) (1/10) = 1/20 →
      window01 center_wl width
        = (center_wl - (width / 2 - 1/20), center_wl + (width / 2 + 1/20))) ∧
    (pyMod (width / 2) (1/10) ≠ 1/20 →
      window01 center_wl width
        = (center_wl - pyRound1 (width / 2), center_wl + pyRound1 (width / 2))) ∧
    (sel01 center_wl width in_situ_wl in_situ_rrs ≠ [] →
      convolve_bands_01nm center_wl width in_situ_wl in_situ_rrs srf_band warnings
        = (if trapzWith ((srfSel01 center_wl width srf_band).map Prod.snd)
                ((srfSel01 center_wl width srf_band).map Prod.fst) = 0 then 0
           else
             trapzWith
               (zipMul
                 ((srfSel01 center_wl width srf_band).map fun r =>
                   npInterp r.1 (sel01 center_wl width in_situ_wl in_situ_rrs))
                 ((srfSel01 center_wl width srf_band).map Prod.snd))
               ((srfSel01 center_wl width srf_band).map Prod.fst)
             / trapzWith ((srfSel01 center_wl width srf_band).map Prod.snd)
                 ((srfSel01 center_wl width srf_band).map Prod.fst),
           warnings)) := by
  refine ⟨fun hb => ?_, fun hnb => ?_, fun hne => ?_⟩
  · simp only [window01, if_pos hb]
    rw [(pyMod_boundary _ hb).1, (pyMod_boundary _ hb).2]
  · simp only [window01, if_neg hnb]
  · have hemp : (sel01 center_wl width in_situ_wl in_situ_rrs).isEmpty = false := by
      cases hsel : sel01 center_wl width in_situ_wl in_situ_rrs with
      | nil => exact absurd hsel hne
      | cons a l => simp
    simp only [convolve_bands_01nm, hemp, Bool.false_eq_true, if_false]
    simp [checkedDiv, num01, den01, interp01]

/-- Witness for C2: width `1.1` hits the boundary branch and a one-sample
window reaches the integration branch with zero denominator. -/
theorem c2_convolve01_spec_witness :
    pyMod ((11/10 : ℚ) / 2) (1/10) = 1/20 ∧
    window01 500 (11/10)
      = (500 - ((11/10 : ℚ) / 2 - 1/20), 500 + ((11/10 : ℚ) / 2 + 1/20)) ∧
    sel01 500 (11/10) [500] [3] ≠ [] ∧
    convolve_bands_01nm 500 (11/10) [500] [3] [(500, 2)] [] = (0, []) := by
  have hb : pyMod ((11/10 : ℚ) / 2) (1/10) = 1/20 := by norm_num [pyMod]
  have hne : sel01 500 (11/10) [500] [3] ≠ [] := by
    norm_num [sel01, selPairs, window01, pyMod, pyRound1, round_eq,
      List.filter_cons, List.filter_nil]
  refine ⟨hb, (c2_convolve01_spec 500 (11/10) [500] [3] [(500, 2)] []).1 hb, hne, ?_⟩
  rw [(c2_convolve01_spec 500 (11/10) [500] [3] [(500, 2)] []).2.2 hne]
  norm_num [srfSel01, selPairs, window01, pyMod, pyRound1, round_eq,
    List.filter_cons, List.filter_nil, trapzWith]

/-! ## C3 -/

/-- An integer-step in-situ wavelength grid `a, a+1, …, a+n-1`. -/
def intGrid (a : ℤ) (n : ℕ) : List ℚ :=
  (List.range n).map fun i : ℕ => ((a + (i : ℤ) : ℤ) : ℚ)

theorem countP_range_min (d e n : ℕ) :
    (List.range n).countP (fun i => decide (d ≤ i) && decide (i ≤ e))
      = min n (e + 1) - min n d := by
  induction n with
  | zero => simp
  | succ n ih =>
    rw [List.range_succ, List.countP_append, ih]
    have hsing : List.countP (fun i => decide (d ≤ i) && decide (i ≤ e)) [n]
        = if d ≤ n ∧ n ≤ e then 1 else 0 := by
      simp only [List.countP_cons, List.countP_nil, Bool.and_eq_true,
        decide_eq_true_eq, Nat.zero_add]
    rw [hsing]
    split <;> omega

/-- The number of integer-grid samples selected by a closed window
`[s, e]` fully covered by the grid is `e - s + 1`. -/
theorem selPairs_intGrid_length (s e a : ℤ) (n : ℕ) (rrs : List ℚ)
    (hlen : rrs.length = n) (ha : a ≤ s) (hse : s ≤ e) (he : e ≤ a + n - 1) :
    (selPairs (s : ℚ) (e : ℚ) ((intGrid a n).zip rrs)).length
      = (e - s).toNat + 1 := by
  have hglen : (intGrid a n).length = n := by
    unfold intGrid
    simp
  have step1 : (selPairs (s : ℚ) (e : ℚ) ((intGrid a n).zip rrs)).length
      = ((intGrid a n).zip rrs).countP
          (fun r => decide ((s : ℚ) ≤ r.1) && decide (r.1 ≤ (e : ℚ))) := by
    unfold selPairs
    exact (List.countP_eq_length_filter _ _).symm
  have hmap : (((intGrid a n).zip rrs).map Prod.fst) = intGrid a n :=
    List.map_fst_zip _ _ (le_of_eq (by rw [hglen, hlen]))
  have step2 : ((intGrid a n).zip rrs).countP
        (fun r => decide ((s : ℚ) ≤ r.1) && decide (r.1 ≤ (e : ℚ)))
      = (intGrid a n).countP
          (fun x => decide ((s : ℚ) ≤ x) && decide (x ≤ (e : ℚ))) := by
    calc ((intGrid a n).zip rrs).countP
          (fun r => decide ((s : ℚ) ≤ r.1) && decide (r.1 ≤ (e : ℚ)))
        = (((intGrid a n).zip rrs).map Prod.fst).countP
            (fun x => decide ((s : ℚ) ≤ x) && decide (x ≤ (e : ℚ))) :=
      (List.countP_map
        (fun x => decide ((s : ℚ) ≤ x) && decide (x ≤ (e : ℚ)))
        Prod.fst ((intGrid a n).zip rrs)).symm
      _ = (intGrid a n).countP
            (fun x => decide ((s : ℚ) ≤ x) && decide (x ≤ (e : ℚ))) := by
        rw [hmap]
  have step3 : (intGrid a n).countP
        (fun x => decide ((s : ℚ) ≤ x) && decide (x ≤ (e : ℚ)))
      = (List.range n).countP
          (fun i => decide ((s - a).toNat ≤ i) && decide (i ≤ (e - a).toNat)) := by
    unfold intGrid
    rw [List.countP_map]
    refine List.countP_congr fun i _ => ?_
    simp only [Function.comp_apply, Bool.and_eq_true, decide_eq_true_eq,
      Int.cast_le]
    omega
  rw [step1, step2, step3, countP_range_min]
  omega

/-- C3: in the coarse-resolution parametric convolution the half-width is
the integer floor of `width / 2` and the window is
`[center - half, center + half]`; the SRF weights are looked up directly
at the selected input wavelengths with no interpolation and the result is
the same guarded ratio of trapezoidal integrals; and a requested FWHM of
`4` on a covering integer grid selects `2·⌊4/2⌋ + 1 = 5` samples — the
effective window of the coerced nearest odd width. -/
theorem c3_convolve1nm_spec (center_wl width : ℚ) (in_situ_wl in_situ_rrs : List ℚ)
    (srfAt : ℚ → ℚ) (warnings : List Warning) (c a : ℤ) (n : ℕ) (rrs : List ℚ) :
    pyFloorDiv2 width = ((⌊width / 2⌋ : ℤ) : ℚ) ∧
    sel1 center_wl width in_situ_wl in_situ_rrs
      = selPairs (center_wl - pyFloorDiv2 width) (center_wl + pyFloorDiv2 width)
          (in_situ_wl.zip in_situ_rrs) ∧
    (sel1 center_wl width in_situ_wl in_situ_rrs ≠ [] →
      convolve_bands_1nm center_wl width in_situ_wl in_situ_rrs srfAt warnings
        = (if trapzWith
                ((sel1 center_wl width in_situ_wl in_situ_rrs).map fun r => srfAt r.1)
                ((sel1 center_wl width in_situ_wl in_situ_rrs).map Prod.fst) = 0
           then 0
           else
             trapzWith
               (zipMul ((sel1 center_wl width in_situ_wl in_situ_rrs).map Prod.snd)
                 ((sel1 center_wl width in_situ_wl in_situ_rrs).map fun r => srfAt r.1))
               ((sel1 center_wl width in_situ_wl in_situ_rrs).map Prod.fst)
             / trapzWith
                 ((sel1 center_wl width in_situ_wl in_situ_rrs).map fun r => srfAt r.1)
                 ((sel1 center_wl width in_situ_wl in_situ_rrs).map Prod.fst),
           warnings)) ∧
    (rrs.length = n → a ≤ c - 2 → c + 2 ≤ a + n - 1 →
      (sel1 (c : ℚ) 4 (intGrid a n) rrs).length = 5) := by
  refine ⟨rfl, rfl, fun hne => ?_, fun hlen ha hcov => ?_⟩
  · have hemp : (sel1 center_wl width in_situ_wl in_situ_rrs).isEmpty = false := by
      cases hsel : sel1 center_wl width in_situ_wl in_situ_rrs with
      | nil => exact absurd hsel hne
      | cons p l => simp
    simp only [convolve_bands_1nm, hemp, Bool.false_eq_true, if_false]
    simp [checkedDiv, num1, den1]
  · have h2 : pyFloorDiv2 (4 : ℚ) = 2 := by norm_num [pyFloorDiv2]
    have e1 : (c : ℚ) - pyFloorDiv2 4 = ((c - 2 : ℤ) : ℚ) := by
      rw [h2]; push_cast; ring
    have e2 : (c : ℚ) + pyFloorDiv2 4 = ((c + 2 : ℤ) : ℚ) := by
      rw [h2]; push_cast; ring
    unfold sel1
    rw [e1, e2, selPairs_intGrid_length (c - 2) (c + 2) a n rrs hlen
      (by omega) (by omega) (by omega)]
    omega

/-- Witness for C3: center 10, FWHM 4, grid 8…12 — five selected samples
and a flat spectrum convolving to its own value. -/
theorem c3_convolve1nm_spec_witness :
    (([1, 1, 1, 1, 1] : List ℚ).length = 5 ∧ (8 : ℤ) ≤ 10 - 2 ∧
      (10 : ℤ) + 2 ≤ 8 + 5 - 1) ∧
    (sel1 ((10 : ℤ) : ℚ) 4 (intGrid 8 5) [1, 1, 1, 1, 1]).length = 5 ∧
    sel1 10 4 [8, 9, 10, 11, 12] [1, 1, 1, 1, 1] ≠ [] ∧
    convolve_bands_1nm 10 4 [8, 9, 10, 11, 12] [1, 1, 1, 1, 1]
      (fun _ => 1) [] = (1, []) := by
  have hhyp : (([1, 1, 1, 1, 1] : List ℚ).length = 5 ∧ (8 : ℤ) ≤ 10 - 2 ∧
      (10 : ℤ) + 2 ≤ 8 + 5 - 1) := ⟨rfl, by norm_num, by norm_num⟩
  have hne : sel1 10 4 [8, 9, 10, 11, 12] [1, 1, 1, 1, 1] ≠ [] := by
    have hv : sel1 10 4 [8, 9, 10, 11, 12] [1, 1, 1, 1, 1]
        = [(8, 1), (9, 1), (10, 1), (11, 1), (12, 1)] := by
      norm_num [sel1, selPairs, pyFloorDiv2, List.filter_cons, List.filter_nil]
    rw [hv]
    simp
  refine ⟨hhyp,
    (c3_convolve1nm_spec ((10 : ℤ) : ℚ) 4 (intGrid 8 5) [1, 1, 1, 1, 1]
        (fun _ => 1) [] 10 8 5 [1, 1, 1, 1, 1]).2.2.2 hhyp.1 hhyp.2.1 hhyp.2.2,
    hne, ?_⟩
  rw [(c3_convolve1nm_spec 10 4 [8, 9, 10, 11, 12] [1, 1, 1, 1, 1]
      (fun _ => 1) [] 10 8 5 [1, 1, 1, 1, 1]).2.2.1 hne]
  norm_num [sel1, selPairs, pyFloorDiv2, List.filter_cons, List.filter_nil,
    trapzWith, zipMul]

/-! ## C4 -/

/-- C4 counterexample: in the fixed-band family the division is executed
unconditionally, so over a window whose SRF column integrates to zero
(an all-zero SRF slice, hence an all-zero product slice) the numpy
division `0.0 / 0.0` yields `nan` — not the value `0.0` the claim
requires for every sensor family. -/
theorem c4_zero_srf_counterexample :
    trapz (slice ([0, 0] : List ℚ) 0 2) = 0 ∧
    fixedBandValue [0, 0] [0, 0] 0 2 ≠ some 0 := by
  constructor
  · norm_num [slice, trapz]
  · norm_num [fixedBandValue, npDiv, slice, trapz]
    simp

/-- C4 (amended): in the parametric family (both variants) a zero SRF
integral yields exactly `0` and the division branch is entered only for a
nonzero denominator; in the fixed-band family the division is executed
unconditionally, so a zero SRF integral yields the non-finite numpy
result instead of `0.0` (no exception — the warning is suppressed). -/
theorem c4_amended_zero_denominator (center_wl width : ℚ)
    (in_situ_wl in_situ_rrs : List ℚ) (srf_band : List (ℚ × ℚ))
    (srfAt : ℚ → ℚ) (warnings : List Warning)
    (prodCol srfCol : List ℚ) (lo hi : ℕ) :
    (den01 center_wl width srf_band = 0 →
      (convolve_bands_01nm center_wl width in_situ_wl in_situ_rrs srf_band
        warnings).1 = 0) ∧
    (den1 center_wl width in_situ_wl in_situ_rrs srfAt = 0 →
      (convolve_bands_1nm center_wl width in_situ_wl in_situ_rrs srfAt
        warnings).1 = 0) ∧
    (∀ n d : ℚ, d ≠ 0 → checkedDiv n d = n / d) ∧
    (trapz (slice srfCol lo hi) = 0 →
      fixedBandValue prodCol srfCol lo hi = none) := by
  refine ⟨fun hd => ?_, fun hd => ?_, fun n d hd => ?_, fun hz => ?_⟩
  · unfold convolve_bands_01nm
    split
    · rfl
    · simp [checkedDiv, hd]
  · unfold convolve_bands_1nm
    split
    · rfl
    · simp [checkedDiv, hd]
  · simp [checkedDiv, hd]
  · simp [fixedBandValue, npDiv, hz]

/-- Witness for C4 (amended) at a one-row window with an all-zero SRF
weight. -/
theorem c4_amended_zero_denominator_witness :
    den01 5 2 [(5, 0)] = 0 ∧
    (convolve_bands_01nm 5 2 [5] [7] [(5, 0)] []).1 = 0 := by
  have hd : den01 5 2 [(5, 0)] = 0 := by
    norm_num [den01, srfSel01, selPairs, window01, pyMod, pyRound1, round_eq,
      List.filter_cons, List.filter_nil, trapzWith]
  exact ⟨hd, (c4_amended_zero_denominator 5 2 [5] [7] [(5, 0)] (fun _ => 0)
    [] [] [] 0 0).1 hd⟩

/-! ## C5 -/

theorem runBands01_length (srfTable : ℚ → List (ℚ × ℚ))
    (in_situ_wl in_situ_rrs : List ℚ) :
    ∀ (bands : List (ℚ × ℚ)) (warnings : List Warning),
      (runBands01 srfTable in_situ_wl in_situ_rrs bands warnings).1.length
        = bands.length := by
  intro bands
  induction bands with
  | nil => intro ws; rfl
  | cons b bs ih =>
    intro ws
    simp only [runBands01, List.length_cons, ih]

/-- C5: a parametric band whose window contains no input sample returns
exactly zero and appends that band's diagnostic to the warnings (both
variants), and the run driver still yields one value per band, so the
remaining bands are all processed. -/
theorem c5_gap_zero_value_and_diagnostic (center_wl width : ℚ)
    (in_situ_wl in_situ_rrs : List ℚ) (srf_band : List (ℚ × ℚ))
    (srfAt : ℚ → ℚ) (warnings : List Warning) (bands : List (ℚ × ℚ))
    (srfTable : ℚ → List (ℚ × ℚ)) :
    (sel01 center_wl width in_situ_wl in_situ_rrs = [] →
      convolve_bands_01nm center_wl width in_situ_wl in_situ_rrs srf_band warnings
        = (0, warnings ++ [Warning.missingInput center_wl])) ∧
    (sel1 center_wl width in_situ_wl in_situ_rrs = [] →
      convolve_bands_1nm center_wl width in_situ_wl in_situ_rrs srfAt warnings
        = (0, warnings ++ [Warning.missingInput center_wl])) ∧
    (runBands01 srfTable in_situ_wl in_situ_rrs bands warnings).1.length
      = bands.length := by
  refine ⟨fun h => ?_, fun h => ?_,
    runBands01_length srfTable in_situ_wl in_situ_rrs bands warnings⟩
  · simp [convolve_bands_01nm, h]
  · simp [convolve_bands_1nm, h]

/-- Witness for C5: a band at 1000 nm misses a spectrum sampled only at
5 nm. -/
theorem c5_gap_zero_value_and_diagnostic_witness :
    sel01 1000 2 [5] [1] = [] ∧
    convolve_bands_01nm 1000 2 [5] [1] [] [] = (0, [Warning.missingInput 1000]) := by
  have h : sel01 1000 2 [5] [1] = [] := by
    norm_num [sel01, selPairs, window01, pyMod, pyRound1, round_eq,
      List.filter_cons, List.filter_nil]
  refine ⟨h, ?_⟩
  have := (c5_gap_zero_value_and_diagnostic 1000 2 [5] [1] [] (fun _ => 0) []
    [] (fun _ => [])).1 h
  simpa using this

/-! ## C6 -/

theorem convolve01_warnings_mono (center_wl width : ℚ) (wl rrs : List ℚ)
    (srf_band : List (ℚ × ℚ)) (ws : List Warning) (x : Warning) (hx : x ∈ ws) :
    x ∈ (convolve_bands_01nm center_wl width wl rrs srf_band ws).2 := by
  unfold convolve_bands_01nm
  split
  · simp [hx]
  · simpa using hx

theorem runBands01_warnings_mono (srfTable : ℚ → List (ℚ × ℚ))
    (wl rrs : List ℚ) :
    ∀ (bands : List (ℚ × ℚ)) (ws : List Warning) (x : Warning), x ∈ ws →
      x ∈ (runBands01 srfTable wl rrs bands ws).2 := by
  intro bands
  induction bands with
  | nil => intro ws x hx; simpa using hx
  | cons b bs ih =>
    intro ws x hx
    simp only [runBands01]
    exact ih _ x (convolve01_warnings_mono b.1 b.2 wl rrs (srfTable b.1) ws x hx)

theorem runBands01_records_gap (srfTable : ℚ → List (ℚ × ℚ))
    (wl rrs : List ℚ) :
    ∀ (bands : List (ℚ × ℚ)) (ws : List Warning) (c w : ℚ),
      (c, w) ∈ bands → sel01 c w wl rrs = [] →
      Warning.missingInput c ∈ (runBands01 srfTable wl rrs bands ws).2 := by
  intro bands
  induction bands with
  | nil => intro ws c w h _; simp at h
  | cons b bs ih =>
    intro ws c w hmem hgap
    simp only [runBands01]
    rcases List.mem_cons.mp hmem with hb | hb
    · have hx : Warning.missingInput c
          ∈ (convolve_bands_01nm b.1 b.2 wl rrs (srfTable b.1) ws).2 := by
        rw [← hb]
        simp [convolve_bands_01nm, hgap]
      exact runBands01_warnings_mono srfTable wl rrs bs _ _ hx
    · exact ih _ c w hb hgap

theorem runObs01_warnings_mono (bands : List (ℚ × ℚ))
    (srfTable : ℚ → List (ℚ × ℚ)) :
    ∀ (os : List (List ℚ × List ℚ)) (ws : List Warning) (x : Warning), x ∈ ws →
      x ∈ (runObs01 bands srfTable os ws).2 := by
  intro os
  induction os with
  | nil => intro ws x hx; simpa using hx
  | cons o os' ih =>
    intro ws x hx
    simp only [runObs01]
    exact ih _ x (runBands01_warnings_mono srfTable o.1 o.2 bands ws x hx)

theorem runObs01_records_gap (bands : List (ℚ × ℚ))
    (srfTable : ℚ → List (ℚ × ℚ)) :
    ∀ (os : List (List ℚ × List ℚ)) (ws : List Warning) (o : List ℚ × List ℚ)
      (c w : ℚ), o ∈ os → (c, w) ∈ bands → sel01 c w o.1 o.2 = [] →
      Warning.missingInput c ∈ (runObs01 bands srfTable os ws).2 := by
  intro os
  induction os with
  | nil => intro ws o c w h _ _; simp at h
  | cons o' os' ih =>
    intro ws o c w hmem hband hgap
    simp only [runObs01]
    rcases List.mem_cons.mp hmem with ho | ho
    · have hx : Warning.missingInput c
          ∈ (runBands01 srfTable o'.1 o'.2 bands ws).2 := by
        rw [← ho]
        exact runBands01_records_gap srfTable o.1 o.2 bands ws c w hband hgap
      exact runObs01_warnings_mono bands srfTable os' _ _ hx
    · exact ih _ o c w ho hband hgap

/-- C6: whenever some observation's spectrum misses a band's window, the
deduplicated diagnostics surfaced at the end of the run contain that
band's missing-input diagnostic exactly once, however many observations
hit the same gap. -/
theorem c6_diagnostics_deduplicated (observations : List (List ℚ × List ℚ))
    (bands : List (ℚ × ℚ)) (srfTable : ℚ → List (ℚ × ℚ)) (c w : ℚ)
    (o : List ℚ × List ℚ) (ho : o ∈ observations) (hb : (c, w) ∈ bands)
    (hgap : sel01 c w o.1 o.2 = []) :
    (surfacedDiagnostics (runObs01 bands srfTable observations []).2).count
      (Warning.missingInput c) = 1 := by
  have hmem : Warning.missingInput c ∈ (runObs01 bands srfTable observations []).2 :=
    runObs01_records_gap bands srfTable observations [] o c w ho hb hgap
  unfold surfacedDiagnostics
  rw [List.count_dedup]
  simp [hmem]

/-- Witness for C6: two observations with the same 5 nm-only spectrum
both miss the 1000 nm band; the surfaced diagnostic appears once. -/
theorem c6_diagnostics_deduplicated_witness :
    (([5], [1]) ∈ ([(([5] : List ℚ), ([1] : List ℚ)), ([5], [1])])) ∧
    ((1000, 2) ∈ [((1000 : ℚ), (2 : ℚ))]) ∧
    sel01 1000 2 [5] [1] = [] ∧
    (surfacedDiagnostics
        (runObs01 [(1000, 2)] (fun _ => []) [([5], [1]), ([5], [1])] []).2).count
      (Warning.missingInput 1000) = 1 := by
  have hgap : sel01 1000 2 [5] [1] = [] := by
    norm_num [sel01, selPairs, window01, pyMod, pyRound1, round_eq,
      List.filter_cons, List.filter_nil]
  exact ⟨by simp, by simp,
    hgap,
    c6_diagnostics_deduplicated [([5], [1]), ([5], [1])] [(1000, 2)]
      (fun _ => []) 1000 2 ([5], [1]) (by simp) (by simp) hgap⟩

/-! ## C7 -/

/-- C7 counterexample: the function-based entry point given a sensor name
outside its dispatch (here `"Landsat5TM"`) still computes the
reflectance × SRF products — numerical work — and then fails with an
`UnboundLocalError`, not with a fail-fast configuration error raised
before numerical work. -/
theorem c7_unknown_sensor_counterexample :
    (doConvolutionTrace "Landsat5TM" [[1]] [("obs1", [2])] false).1
      = [("obs1", [[2]])] ∧
    (doConvolutionTrace "Landsat5TM" [[1]] [("obs1", [2])] false).2
      = Except.error PyError.unboundLocal := by
  constructor
  · simp [doConvolutionTrace, bandMuls, zipMul]
  · simp [doConvolutionTrace]

/-- C7 (amended): the class-based constructor rejects an unknown sensor
name with a `ValueError` before loading any SRF table or touching the
data; the function-based entry point instead computes all reflectance ×
SRF products first and then raises `UnboundLocalError` for a name it
does not dispatch on, returning no table. -/
theorem c7_amended_unknown_sensor (sensor_name : String)
    (srfCols : List (List ℚ)) (obs : List (String × List ℚ)) (flag : Bool)
    (hclass : sensor_name ∉ availableSensors)
    (h2 : sensor_name ≠ "Sentinel2") (h3 : sensor_name ≠ "Sentinel3")
    (h4 : sensor_name ≠ "Superdove") :
    convolutionInit sensor_name srfCols obs = Except.error PyError.valueError ∧
    (doConvolutionTrace sensor_name srfCols obs flag).1 = bandMuls srfCols obs ∧
    (doConvolutionTrace sensor_name srfCols obs flag).2
      = Except.error PyError.unboundLocal := by
  refine ⟨?_, ?_, ?_⟩
  · simp [convolutionInit, hclass]
  · simp [doConvolutionTrace, h2, h3, h4]
  · simp [doConvolutionTrace, h2, h3, h4]

/-- Witness for C7 (amended) at the unknown sensor name `"Foo"`. -/
theorem c7_amended_unknown_sensor_witness :
    ("Foo" ∉ availableSensors) ∧
    convolutionInit "Foo" [[1]] [("obs1", [2])] = Except.error PyError.valueError ∧
    (doConvolutionTrace "Foo" [[1]] [("obs1", [2])] false).2
      = Except.error PyError.unboundLocal := by
  have hclass : "Foo" ∉ availableSensors := by simp [availableSensors]
  have h := c7_amended_unknown_sensor "Foo" [[1]] [("obs1", [2])] false hclass
    (by simp) (by simp) (by simp)
  exact ⟨hclass, h.1, h.2.2⟩

/-! ## C8 -/

/-- With pairwise-distinct observation identifiers — the only inputs on
which the source's product loop completes (duplicate column labels raise
`AttributeError` at `.name` before any dict assignment) — `band_muls`
holds exactly one product table per observation, in input order. -/
theorem bandMuls_nodup (srfCols : List (List ℚ)) (obs : List (String × List ℚ))
    (_hnd : (obs.map Prod.fst).Nodup) :
    bandMuls srfCols obs
      = obs.map fun o => (o.1, srfCols.map fun c => zipMul c o.2) := rfl

/-- C8 counterexample: with zero observations the function-based entry
point raises `IndexError` (`convolved_data[0]` on an empty list) instead
of returning a table with the canonical band labels. -/
theorem c8_labels_counterexample :
    (doConvolutionTrace "Sentinel2" [] [] false).2
      = Except.error PyError.indexError := by
  simp [doConvolutionTrace, bandMuls, sentinel2Do]

/-- C8 (amended): for every input with at least one observation — the
identifiers pairwise distinct, as on duplicate column labels both entry
points raise `AttributeError` in the product loop before any
convolution — the Sentinel-2 output tables of both entry points carry
exactly the canonical ordered band labels as row index and exactly one
column per observation named `id + "_conv"`, every column holding one
value per band. -/
theorem c8_amended_labels (srfCols : List (List ℚ)) (obs : List (String × List ℚ))
    (flag : Bool) (hne : obs ≠ []) (hnd : (obs.map Prod.fst).Nodup) :
    (∃ T, (doConvolutionTrace "Sentinel2" srfCols obs flag).2 = Except.ok T ∧
      T.1 = s2BandNames flag ∧
      T.2.map Prod.fst = obs.map (fun o => o.1 ++ "_conv") ∧
      ∀ col ∈ T.2, col.2.length = (s2BandNames flag).length) ∧
    ((sentinel2ClassTable srfCols obs).1 = sentinel2ClassBands ∧
      (sentinel2ClassTable srfCols obs).2.map Prod.fst
        = obs.map (fun o => o.1 ++ "_conv") ∧
      ∀ col ∈ (sentinel2ClassTable srfCols obs).2,
        col.2.length = sentinel2ClassBands.length) := by
  have hbm := bandMuls_nodup srfCols obs hnd
  have hmapfst : (sentinel2Do srfCols (bandMuls srfCols obs) flag).map Prod.fst
      = obs.map (fun o => o.1 ++ "_conv") := by
    rw [hbm]
    unfold sentinel2Do
    simp [List.map_map, Function.comp]
  constructor
  · refine ⟨(s2BandNames flag, sentinel2Do srfCols (bandMuls srfCols obs) flag),
      ?_, rfl, hmapfst, ?_⟩
    · have hmne : sentinel2Do srfCols (bandMuls srfCols obs) flag ≠ [] := by
        rw [hbm]
        unfold sentinel2Do
        simpa using hne
      have hemp : (sentinel2Do srfCols (bandMuls srfCols obs) flag).isEmpty
          = false := by
        cases hval : sentinel2Do srfCols (bandMuls srfCols obs) flag with
        | nil => exact absurd hval hmne
        | cons a l => simp
      simp [doConvolutionTrace, hemp]
    · intro col hcol
      unfold sentinel2Do at hcol
      obtain ⟨m, hm, rfl⟩ := List.mem_map.mp hcol
      simp only [List.length_map]
      cases flag <;> rfl
  · refine ⟨rfl, ?_, ?_⟩
    · unfold sentinel2ClassTable
      rw [hbm]
      simp [List.map_map, Function.comp]
    · intro col hcol
      unfold sentinel2ClassTable at hcol
      simp only at hcol
      obtain ⟨m, hm, rfl⟩ := List.mem_map.mp hcol
      simp only [bandRatios, List.length_map, List.enum_length]
      rfl

/-- Witness for C8 (amended) at a single observation `"a"`. -/
theorem c8_amended_labels_witness :
    ([("a", ([1] : List ℚ))] ≠ []) ∧
    (([("a", ([1] : List ℚ))].map Prod.fst).Nodup) ∧
    (sentinel2ClassTable [[1]] [("a", [1])]).1 = sentinel2ClassBands ∧
    (sentinel2ClassTable [[1]] [("a", [1])]).2.map Prod.fst = ["a_conv"] := by
  have hne : [("a", ([1] : List ℚ))] ≠ [] := by simp
  have hnd : (([("a", ([1] : List ℚ))]).map Prod.fst).Nodup := by simp
  have h := c8_amended_labels [[1]] [("a", [1])] false hne hnd
  refine ⟨hne, hnd, h.2.1, ?_⟩
  rw [h.2.2.1]
  rfl

/-! ## C9 -/

/-- C9: the convolution is a pure function of its inputs — rerunning on
identical inputs gives the identical table, a band value does not depend
on the warnings accumulated so far (the only threaded state), and two
observations carrying the same spectrum receive the same column of band
values in the output. -/
theorem c9_deterministic_pure (srfCols : List (List ℚ))
    (obs : List (String × List ℚ)) (center_wl width : ℚ) (wl rrs : List ℚ)
    (srf_band : List (ℚ × ℚ)) (ws ws' : List Warning) (a b : String)
    (r : List ℚ) (hnd : (obs.map Prod.fst).Nodup)
    (ha : (a, r) ∈ obs) (hb : (b, r) ∈ obs) :
    sentinel2ClassTable srfCols obs = sentinel2ClassTable srfCols obs ∧
    (convolve_bands_01nm center_wl width wl rrs srf_band ws).1
      = (convolve_bands_01nm center_wl width wl rrs srf_band ws').1 ∧
    ((a ++ "_conv",
        bandRatios sentinel2Ranges (srfCols.map fun c => zipMul c r) srfCols)
      ∈ (sentinel2ClassTable srfCols obs).2 ∧
      (b ++ "_conv",
        bandRatios sentinel2Ranges (srfCols.map fun c => zipMul c r) srfCols)
      ∈ (sentinel2ClassTable srfCols obs).2) := by
  have hbm := bandMuls_nodup srfCols obs hnd
  refine ⟨rfl, ?_, ?_, ?_⟩
  · cases hc : (sel01 center_wl width wl rrs).isEmpty <;>
      simp [convolve_bands_01nm, hc]
  · unfold sentinel2ClassTable
    rw [hbm]
    exact List.mem_map_of_mem _ (List.mem_map_of_mem _ ha)
  · unfold sentinel2ClassTable
    rw [hbm]
    exact List.mem_map_of_mem _ (List.mem_map_of_mem _ hb)

/-- Witness for C9: two observations `"a"`, `"b"` with the same spectrum. -/
theorem c9_deterministic_pure_witness :
    ((["a", "b"] : List String).Nodup) ∧
    (("a", ([1] : List ℚ)) ∈ [("a", ([1] : List ℚ)), ("b", [1])]) ∧
    (("b", ([1] : List ℚ)) ∈ [("a", ([1] : List ℚ)), ("b", [1])]) ∧
    (("a" ++ "_conv",
        bandRatios sentinel2Ranges ([[1]].map fun c => zipMul c [1]) [[1]])
      ∈ (sentinel2ClassTable [[1]] [("a", [1]), ("b", [1])]).2 ∧
      ("b" ++ "_conv",
        bandRatios sentinel2Ranges ([[1]].map fun c => zipMul c [1]) [[1]])
      ∈ (sentinel2ClassTable [[1]] [("a", [1]), ("b", [1])]).2) := by
  have hnd : (([("a", ([1] : List ℚ)), ("b", [1])]).map Prod.fst).Nodup := by
    simp
  exact ⟨by simp, by simp, by simp,
    (c9_deterministic_pure [[1]] [("a", [1]), ("b", [1])] 0 0 [] [] [] [] []
      "a" "b" [1] hnd (by simp) (by simp)).2.2⟩

/-! ## C10 -/

theorem npInterp_le_head (x x1 f1 : ℚ) (rest : List (ℚ × ℚ)) (hx : x ≤ x1) :
    npInterp x ((x1, f1) :: rest) = f1 := by
  cases rest with
  | nil => rfl
  | cons p l =>
    obtain ⟨x2, f2⟩ := p
    simp [npInterp, hx]

theorem chain'_head_le_last : ∀ (l : List (ℚ × ℚ)) (p q : ℚ × ℚ),
    List.Chain' (fun a b : ℚ × ℚ => a.1 < b.1) (p :: l) →
    (p :: l).getLast? = some q → p.1 ≤ q.1 := by
  intro l
  induction l with
  | nil =>
    intro p q _ hlast
    simp only [List.getLast?_singleton, Option.some.injEq] at hlast
    exact le_of_eq (congrArg Prod.fst hlast)
  | cons p2 rest ih =>
    intro p q hchain hlast
    rw [List.chain'_cons] at hchain
    have hlast' : (p2 :: rest).getLast? = some q := by
      simpa [List.getLast?_cons_cons] using hlast
    exact le_of_lt (lt_of_lt_of_le hchain.1 (ih p2 q hchain.2 hlast'))

theorem npInterp_ge_last (x : ℚ) :
    ∀ (l : List (ℚ × ℚ)) (xn fn : ℚ),
      List.Chain' (fun p q : ℚ × ℚ => p.1 < q.1) l →
      l.getLast? = some (xn, fn) → xn ≤ x → npInterp x l = fn := by
  intro l
  induction l with
  | nil => intro xn fn _ hlast _; simp at hlast
  | cons p rest ih =>
    intro xn fn hchain hlast hx
    obtain ⟨x1, f1⟩ := p
    cases rest with
    | nil =>
      simp only [List.getLast?_singleton, Option.some.injEq, Prod.mk.injEq] at hlast
      rw [← hlast.2]
      rfl
    | cons q rest' =>
      obtain ⟨x2, f2⟩ := q
      rw [List.chain'_cons] at hchain
      have hlast' : ((x2, f2) :: rest').getLast? = some (xn, fn) := by
        simpa [List.getLast?_cons_cons] using hlast
      have hx2n : x2 ≤ xn :=
        chain'_head_le_last rest' (x2, f2) (xn, fn) hchain.2 hlast'
      have hx1 : ¬ x ≤ x1 := by
        push_neg
        exact lt_of_lt_of_le hchain.1 (le_trans hx2n hx)
      by_cases hx2 : x ≤ x2
      · have hxeq : x = x2 := le_antisymm hx2 (le_trans hx2n hx)
        cases rest' with
        | nil =>
          simp only [List.getLast?_cons_cons, List.getLast?_singleton,
            Option.some.injEq, Prod.mk.injEq] at hlast'
          have h12 : x1 < x2 := hchain.1
          have hne : x2 - x1 ≠ 0 := sub_ne_zero.mpr h12.ne'
          simp only [npInterp, if_neg hx1, if_pos hx2]
          rw [hxeq, ← hlast'.2]
          field_simp
        | cons q2 rest2 =>
          exfalso
          have h23 : x2 < q2.1 := (List.chain'_cons.mp hchain.2).1
          have hq2last : (q2 :: rest2).getLast? = some (xn, fn) := by
            simpa [List.getLast?_cons_cons] using hlast'
          have hq2n : q2.1 ≤ xn :=
            chain'_head_le_last rest2 q2 (xn, fn)
              (List.chain'_cons.mp hchain.2).2 hq2last
          have : x2 < x2 :=
            lt_of_lt_of_le (lt_of_lt_of_le h23 hq2n) (hxeq ▸ hx)
          exact lt_irrefl x2 this
      · simp only [npInterp, if_neg hx1, if_neg hx2]
        exact ih xn fn hchain.2 hlast' hx

/-- C10: when at least one input sample lies in the window the fine
variant records no diagnostic and integrates over the full in-window SRF
grid, interpolating the in-window input samples onto it; an SRF
wavelength at or left of the first in-window sample receives that
sample's reflectance and one at or right of the last in-window sample
receives that sample's reflectance — nearest-sample constant endpoint
extrapolation, with no window shrinking and no zero result. -/
theorem c10_endpoint_extrapolation (center_wl width : ℚ)
    (in_situ_wl in_situ_rrs : List ℚ) (srf_band : List (ℚ × ℚ))
    (warnings : List Warning) (x : ℚ) (p0 pn : ℚ × ℚ)
    (hne : sel01 center_wl width in_situ_wl in_situ_rrs ≠ [])
    (hchain : List.Chain' (fun p q : ℚ × ℚ => p.1 < q.1)
      (sel01 center_wl width in_situ_wl in_situ_rrs)) :
    (convolve_bands_01nm center_wl width in_situ_wl in_situ_rrs srf_band
        warnings).2 = warnings ∧
    interp01 center_wl width in_situ_wl in_situ_rrs srf_band
      = (srfSel01 center_wl width srf_band).map
          (fun r => npInterp r.1 (sel01 center_wl width in_situ_wl in_situ_rrs)) ∧
    ((sel01 center_wl width in_situ_wl in_situ_rrs).head? = some p0 →
      x ≤ p0.1 →
      npInterp x (sel01 center_wl width in_situ_wl in_situ_rrs) = p0.2) ∧
    ((sel01 center_wl width in_situ_wl in_situ_rrs).getLast? = some pn →
      pn.1 ≤ x →
      npInterp x (sel01 center_wl width in_situ_wl in_situ_rrs) = pn.2) := by
  refine ⟨?_, rfl, fun hh hx => ?_, fun hl hx => ?_⟩
  · have hemp : (sel01 center_wl width in_situ_wl in_situ_rrs).isEmpty = false := by
      cases hsel : sel01 center_wl width in_situ_wl in_situ_rrs with
      | nil => exact absurd hsel hne
      | cons p l => simp
    simp [convolve_bands_01nm, hemp]
  · cases hsel : sel01 center_wl width in_situ_wl in_situ_rrs with
    | nil => rw [hsel] at hh; simp at hh
    | cons p rest =>
      obtain ⟨x1, f1⟩ := p
      rw [hsel] at hh
      simp only [List.head?_cons, Option.some.injEq] at hh
      rw [← hh] at hx ⊢
      exact npInterp_le_head x x1 f1 rest hx
  · refine npInterp_ge_last x _ pn.1 pn.2 hchain ?_ hx
    simpa using hl

/-- Witness for C10: SRF wavelengths 498 and 502 lie outside the
in-window samples 499, 500 and receive their endpoint reflectances. -/
theorem c10_endpoint_extrapolation_witness :
    sel01 500 4 [499, 500] [7, 9] ≠ [] ∧
    List.Chain' (fun p q : ℚ × ℚ => p.1 < q.1) (sel01 500 4 [499, 500] [7, 9]) ∧
    npInterp 498 (sel01 500 4 [499, 500] [7, 9]) = 7 ∧
    npInterp 502 (sel01 500 4 [499, 500] [7, 9]) = 9 := by
  have hval : sel01 500 4 [499, 500] [7, 9] = [(499, 7), (500, 9)] := by
    norm_num [sel01, selPairs, window01, pyMod, pyRound1, round_eq,
      List.filter_cons, List.filter_nil]
  have hne : sel01 500 4 [499, 500] [7, 9] ≠ [] := by
    rw [hval]; simp
  have hchain : List.Chain' (fun p q : ℚ × ℚ => p.1 < q.1)
      (sel01 500 4 [499, 500] [7, 9]) := by
    rw [hval]
    simp only [List.chain'_cons, List.chain'_singleton, and_true]
    norm_num
  refine ⟨hne, hchain, ?_, ?_⟩
  · exact (c10_endpoint_extrapolation 500 4 [499, 500] [7, 9] [] [] 498
      (499, 7) (499, 7) hne hchain).2.2.1 (by rw [hval]; simp) (by norm_num)
  · exact (c10_endpoint_extrapolation 500 4 [499, 500] [7, 9] [] [] 502
      (500, 9) (500, 9) hne hchain).2.2.2 (by rw [hval]; simp) (by norm_num)

end SensorConv
